import Mathlib

/-!
Shallow embedding of the Zurich station display (`bus_display.py`):
the stationboard request parameter construction (`fetch_data`), the
refresh-timer recurrence, and the per-record normalization and display
logic (`update_display` / `create_bus_entry`).  Timestamps are modelled
as absolute epoch seconds (`Int`): `datetime.fromisoformat` on an
ISO-8601 string with zone yields an aware datetime, and aware-datetime
subtraction is exactly the difference of absolute instants.  UI styling
(colors, fonts, geometry) carries no data and is omitted; the rendered
content of each row is kept.
-/

namespace BusDisplay

/-- Python `int(x)` applied to the exact quotient `d / 60`: truncation
toward zero, which on integers is T-division (`Int.tdiv`).  This embeds
line 345 of `bus_display.py`: `minutes = int((dt - now).total_seconds() / 60)`. -/
def minutesUntil (dep now : Int) : Int :=
  Int.tdiv (dep - now) 60

/-- A raw stationboard entry as `create_bus_entry` reads it.
`stopDeparture = none` models a record where `bus['stop']` or
`bus['stop']['departure']` is missing (the subscript raises `KeyError`);
`some none` models `departure` present but `null` (falsy);
`some (some t)` models a departure that parses to absolute second `t`.
`toDest = none` models the `'to'` key missing (subscript raises `KeyError`);
`number` and `category` are read with `.get` and a default, so they are
plain options. -/
structure RawEntry where
  stopDeparture : Option (Option Int)
  number : Option String
  toDest : Option String
  category : Option String
deriving DecidableEq, Repr

/-- The displayed content of one row produced by `create_bus_entry`:
line label, cleaned destination, icon kind, the departure-time text, and
the computed minutes (`none` when the departure was `null` and the text
is `"N/A"`). -/
structure Row where
  line : String
  destination : String
  icon : String
  timeDisplay : String
  minutes : Option Int
deriving DecidableEq, Repr

/-- Character class `[a-zA-ZÀ-ÿ]` of the regex on line 363. -/
def isLetterClass (c : Char) : Bool :=
  (('a' ≤ c && c ≤ 'z') || ('A' ≤ c && c ≤ 'Z')
    || (0xC0 ≤ c.toNat && c.toNat ≤ 0xFF))

/-- After the city prefix matched, the regex consumes `[^a-zA-ZÀ-ÿ]*`:
drop the longest run of characters outside the letter class. -/
def dropNonLetters (l : List Char) : List Char :=
  l.dropWhile (fun c => !(isLetterClass c))

/-- Embedding of `re.sub(r'^Z[üu]rich[^a-zA-ZÀ-ÿ]*', '', destination)`
on the character list: the pattern is anchored, case-sensitive, and when
it matches the matched span is replaced by the empty string; otherwise
the input is unchanged. -/
def stripZurichList (l : List Char) : List Char :=
  match l with
  | c0 :: c1 :: c2 :: c3 :: c4 :: c5 :: rest =>
      if c0 = 'Z' ∧ (c1 = 'ü' ∨ c1 = 'u') ∧ c2 = 'r' ∧ c3 = 'i' ∧ c4 = 'c' ∧ c5 = 'h'
      then dropNonLetters rest
      else l
  | _ => l

/-- Destination cleanup of line 363, on `String`. -/
def stripZurich (s : String) : String :=
  String.mk (stripZurichList s.data)

/-- The `icon_mapping` table of lines 368-378. -/
def icon_mapping : List (String × String) :=
  [("B", "bus"), ("BUS", "bus"), ("T", "tram"), ("TRAM", "tram"),
   ("S", "train"), ("IC", "train"), ("IR", "train"), ("RE", "train"),
   ("EC", "train")]

/-- `icon_mapping.get(category, 'bus')` of line 381. -/
def iconFor (category : String) : String :=
  ((icon_mapping.find? (fun p => p.1 == category)).map Prod.snd).getD "bus"

/-- ASCII apostrophe, the trailing character of the `in N'` display text. -/
def tick : String := String.singleton (Char.ofNat 39)

/-- The tail of `create_bus_entry` from line 358 on: read `bus['to']`
(`KeyError` when absent, modelled as `Except.error`), clean the
destination, read `number` and `category` with their defaults, and build
the row that the widgets display. -/
def finishRow (bus : RawEntry) (time_display : String) (minutes : Option Int) :
    Except Unit (Option Row) :=
  match bus.toDest with
  | none => .error ()
  | some dest =>
      .ok (some { line := bus.number.getD "N/A",
                  destination := stripZurich dest,
                  icon := iconFor (bus.category.getD ""),
                  timeDisplay := time_display,
                  minutes := minutes })

/-- Embedding of `create_bus_entry` (lines 336-448) up to the returned
row content.  `now` is the value `datetime.now(dt.tzinfo)` read inside
this call.  A missing `stop`/`departure` or `to` key raises (`.error`);
a strictly negative computed minutes value returns early (`.ok none`,
the row is skipped); a `null` departure renders `"N/A"`.  Note the
`KeyError` on `bus['to']` can only fire after the early return, exactly
as in the source. -/
def create_bus_entry (bus : RawEntry) (now : Int) : Except Unit (Option Row) :=
  match bus.stopDeparture with
  | none => .error ()
  | some departure_time =>
      match departure_time with
      | some dep =>
          let minutes := minutesUntil dep now
          if minutes < 0 then .ok none
          else
            finishRow bus
              (if minutes = 0 then "Now" else "in " ++ toString minutes ++ tick)
              (some minutes)
      | none => finishRow bus "N/A" none

/-- Python dict assignment `params[k] = v` on a dict kept as an ordered
association list: when the key is present its value is replaced in
place, otherwise the pair is appended. -/
def dictInsert (params : List (String × String)) (k v : String) :
    List (String × String) :=
  if params.any (fun p => p.1 == k) then
    params.map (fun p => if p.1 == k then (k, v) else p)
  else
    params ++ [(k, v)]

/-- Python `s.split(',')` on the character list: cut at every comma,
keeping empty pieces. -/
def splitComma : List Char → List (List Char)
  | [] => [[]]
  | c :: rest =>
      if c = ',' then [] :: splitComma rest
      else
        match splitComma rest with
        | [] => [[c]]
        | g :: gs => (c :: g) :: gs

/-- Python whitespace as `str.strip()` removes it (space, tab, newline,
carriage return, form feed, vertical tab). -/
def isPySpace (c : Char) : Bool :=
  c = ' ' || c = '\t' || c = '\n' || c = '\r' || c.toNat = 0xB || c.toNat = 0xC

/-- Python `s.strip()` on the character list. -/
def stripChars (l : List Char) : List Char :=
  ((l.dropWhile isPySpace).reverse.dropWhile isPySpace).reverse

/-- Embedding of the request-parameter construction in `fetch_data`
(lines 256-268): start from `station` and `limit`, then, when a
transport filter is configured, either assign each comma-separated
type's stripped name to the key `transportations[]` in turn (the source
iterates `self.transport_type.split(',')` assigning into the same dict
key), or assign the single type once. -/
def buildParams (station_name : String) (max_buses : Nat)
    (transport_type : Option String) : List (String × String) :=
  let params := [("station", station_name), ("limit", toString max_buses)]
  match transport_type with
  | none => params
  | some tt =>
      if tt.data.any (fun c => c = ',') then
        (splitComma tt.data).foldl
          (fun ps t => dictInsert ps "transportations[]" (String.mk (stripChars t)))
          params
      else
        dictInsert params "transportations[]" tt

/-- The JSON body of a successful response as `update_display` reads it.
`station = none` models the `station` key absent, `some none` an
explicit `null`, `some (some ())` a station object; `stationboard =
none` models the `stationboard` key absent. -/
structure ApiResponse where
  station : Option (Option Unit)
  stationboard : Option (List RawEntry)

/-- What `update_display` leaves on the screen: the station-not-found
message, the no-buses message, or the rendered rows.  `aborted = true`
records that an uncaught `KeyError` escaped the entry loop, so the rows
after the offending record were never rendered. -/
inductive DisplayOutcome
  | stationNotFound
  | noData
  | entries (rows : List Row) (aborted : Bool)
deriving DecidableEq, Repr

/-- The entry loop of `update_display` (lines 333-334).  `clock n` is
the value `datetime.now(...)` returns inside the call of
`create_bus_entry` for the record at position `n`: the source re-reads
the clock for every record, so the reading is indexed by position.  An
exception from one record aborts the loop; rows already packed by
earlier iterations remain displayed. -/
def renderEntries (clock : Nat → Int) : List RawEntry → Nat → List Row × Bool
  | [], _ => ([], false)
  | bus :: rest, n =>
      match create_bus_entry bus (clock n) with
      | .error _ => ([], true)
      | .ok none => renderEntries clock rest (n + 1)
      | .ok (some r) =>
          let t := renderEntries clock rest (n + 1)
          (r :: t.1, t.2)

/-- Embedding of `update_display` (lines 288-334): the station-null
check first, then the missing-or-empty `stationboard` check, then the
entry loop. -/
def update_display (data : ApiResponse) (clock : Nat → Int) : DisplayOutcome :=
  match data.station with
  | some none => .stationNotFound
  | _ =>
      match data.stationboard with
      | none => .noData
      | some [] => .noData
      | some sb =>
          let t := renderEntries clock sb 0
          .entries t.1 t.2

/-- Specification-side companion of `renderEntries` for comparison: the
rows every record would produce, with no exception propagation (an
erroneous record contributes nothing and the loop goes on). -/
def allRows (clock : Nat → Int) : List RawEntry → Nat → List Row
  | [], _ => []
  | bus :: rest, n =>
      match create_bus_entry bus (clock n) with
      | .ok (some r) => r :: allRows clock rest (n + 1)
      | _ => allRows clock rest (n + 1)

/-- Specification-side companion written from the spec's wording of the
Normalizer contract: normalize a batch against one single reference time
`now` for the whole batch, skipping erroneous records. -/
def normalizeSingle (now : Int) : List RawEntry → List Row
  | [] => []
  | bus :: rest =>
      match create_bus_entry bus now with
      | .ok (some r) => r :: normalizeSingle now rest
      | _ => normalizeSingle now rest

/-- Start instant (in seconds from the first fetch) of cycle `n`'s fetch
thread.  `fetch_data` spawns the fetch thread and immediately calls
`self.root.after(self.refresh_interval * 1000, self.fetch_data)`
(line 286), so each cycle starts one interval after the previous one
started, regardless of when its result is delivered. -/
def startTime (interval : Nat) : Nat → Nat
  | 0 => 0
  | n + 1 => startTime interval n + interval

/-- Delivery instant of cycle `n`'s result: the fetch thread runs for
`dur n` seconds and then posts `update_display` via
`self.root.after(0, ...)` (line 275). -/
def deliveryTime (interval : Nat) (dur : Nat → Nat) (n : Nat) : Nat :=
  startTime interval n + dur n

/-! Helper lemmas shared by several claim theorems. -/

/-- Unfolding of truncating division at a negative numerator. -/
theorem tdiv_negSucc (m n : Nat) :
    Int.tdiv (Int.negSucc m) (Int.ofNat n) = -Int.ofNat ((m + 1) / n) := rfl

/-- Unfolding of flooring division at a negative numerator. -/
theorem fdiv_negSucc (m n : Nat) :
    Int.fdiv (Int.negSucc m) (Int.ofNat (n + 1)) = Int.negSucc (m / (n + 1)) := rfl

/-- Truncating division by 60 agrees with flooring division on
nonnegative numerators and on exact multiples, and exceeds it by one
everywhere else. -/
theorem tdiv60_cases (d : Int) :
    Int.tdiv d 60 =
      if 0 ≤ d ∨ (60 : Int) ∣ d then Int.fdiv d 60 else Int.fdiv d 60 + 1 := by
  cases d with
  | ofNat n =>
      have h : (0 : Int) ≤ Int.ofNat n := Int.ofNat_zero_le n
      rw [if_pos (Or.inl h)]
      exact (Int.fdiv_eq_tdiv h (by decide)).symm
  | negSucc m =>
      have h60 : (60 : Int) = Int.ofNat 60 := rfl
      have hfd : Int.fdiv (Int.negSucc m) 60 = Int.negSucc (m / 60) := by
        rw [h60]; exact fdiv_negSucc m 59
      have htd : Int.tdiv (Int.negSucc m) 60 = -Int.ofNat ((m + 1) / 60) := by
        rw [h60]; exact tdiv_negSucc m 60
      have hns : ¬ (0 ≤ Int.negSucc m) := by rw [Int.negSucc_eq]; omega
      have hdvd : ((60 : Int) ∣ Int.negSucc m) ↔ (60 ∣ (m + 1)) := by
        rw [Int.negSucc_eq, Int.dvd_neg]
        norm_cast
      by_cases hd : 60 ∣ (m + 1)
      · rw [if_pos (Or.inr (hdvd.mpr hd)), htd, hfd]
        have hsd : (m + 1) / 60 = m / 60 + 1 := by
          rw [Nat.succ_div]; simp [hd]
        rw [hsd, Int.negSucc_eq]
        simp only [Int.ofNat_eq_natCast]
        generalize m / 60 = k
        push_cast
        omega
      · rw [if_neg (by rw [hdvd]; exact fun h => h.elim hns hd), htd, hfd]
        have hsd : (m + 1) / 60 = m / 60 := by
          rw [Nat.succ_div]; simp [hd]
        rw [hsd, Int.negSucc_eq]
        simp only [Int.ofNat_eq_natCast]
        generalize m / 60 = k
        omega

/-- Truncating division by 60 vanishes on the open interval (-60, 60). -/
theorem tdiv60_eq_zero {d : Int} (h1 : -60 < d) (h2 : d < 60) : Int.tdiv d 60 = 0 := by
  cases d with
  | ofNat n =>
      have hn : n < 60 := by
        simp only [Int.ofNat_eq_natCast] at h2; exact_mod_cast h2
      show Int.ofNat (n / 60) = 0
      rw [Nat.div_eq_of_lt hn]; rfl
  | negSucc m =>
      have hm : m + 1 < 60 := by rw [Int.negSucc_eq] at h1; omega
      have h60 : (60 : Int) = Int.ofNat 60 := rfl
      rw [h60, tdiv_negSucc m 60, Nat.div_eq_of_lt hm]; rfl

/-- Truncating division by 60 is strictly negative at or below -60. -/
theorem tdiv60_neg {d : Int} (h : d ≤ -60) : Int.tdiv d 60 < 0 := by
  cases d with
  | ofNat n =>
      exfalso
      have := Int.ofNat_zero_le n
      simp only [Int.ofNat_eq_natCast] at this h
      omega
  | negSucc m =>
      have hm : 60 ≤ m + 1 := by rw [Int.negSucc_eq] at h; omega
      have h1 : 1 ≤ (m + 1) / 60 := (Nat.one_le_div_iff (by omega)).mpr hm
      have h60 : (60 : Int) = Int.ofNat 60 := rfl
      rw [h60, tdiv_negSucc m 60]
      simp only [Int.ofNat_eq_natCast]
      omega

/-- Truncating division by 60 of a nonnegative numerator is nonnegative. -/
theorem tdiv60_nonneg {d : Int} (h : 0 ≤ d) : 0 ≤ Int.tdiv d 60 :=
  Int.tdiv_nonneg h (by decide)

/-- Python dict assignment preserves the entries under other keys. -/
theorem mem_dictInsert (ps : List (String × String)) (k v : String)
    (p : String × String) (hp : p ∈ ps) (hk : p.1 ≠ k) :
    p ∈ dictInsert ps k v := by
  unfold dictInsert
  split
  · refine List.mem_map.mpr ⟨p, hp, ?_⟩
    simp [hk]
  · exact List.mem_append_left _ hp

/-- Folding dict assignments under one key preserves entries under other
keys. -/
theorem mem_foldl_dictInsert (l : List (List Char)) (ps : List (String × String))
    (p : String × String) (hp : p ∈ ps) (hk : p.1 ≠ "transportations[]") :
    p ∈ l.foldl
        (fun ps t => dictInsert ps "transportations[]" (String.mk (stripChars t))) ps := by
  induction l generalizing ps with
  | nil => exact hp
  | cons t ts ih => exact ih _ (mem_dictInsert _ _ _ _ hp hk)

/-- The rows the entry loop leaves on screen are an initial segment of
the rows every record would produce were no exception raised. -/
theorem renderEntries_prefix_allRows (clock : Nat → Int) (raw : List RawEntry) (n : Nat) :
    ∃ t, (renderEntries clock raw n).1 ++ t = allRows clock raw n := by
  induction raw generalizing n with
  | nil => exact ⟨[], rfl⟩
  | cons bus rest ih =>
      cases hc : create_bus_entry bus (clock n) with
      | error e =>
          exact ⟨allRows clock rest (n + 1), by simp [renderEntries, allRows, hc]⟩
      | ok o =>
          cases o with
          | none =>
              obtain ⟨t, ht⟩ := ih (n + 1)
              exact ⟨t, by simpa [renderEntries, allRows, hc] using ht⟩
          | some r =>
              obtain ⟨t, ht⟩ := ih (n + 1)
              exact ⟨t, by simpa [renderEntries, allRows, hc] using ht⟩

/-- The entry loop renders at most one row per raw record. -/
theorem renderEntries_length_le (clock : Nat → Int) (raw : List RawEntry) (n : Nat) :
    (renderEntries clock raw n).1.length ≤ raw.length := by
  induction raw generalizing n with
  | nil => simp [renderEntries]
  | cons bus rest ih =>
      cases hc : create_bus_entry bus (clock n) with
      | error e => simp [renderEntries, hc]
      | ok o =>
          cases o with
          | none =>
              have := ih (n + 1)
              simp only [renderEntries, hc]
              exact Nat.le_succ_of_le this
          | some r =>
              have := ih (n + 1)
              simp only [renderEntries, hc, List.length_cons]
              omega

/-! Claim theorems. -/

/-- C1: evaluation at the failing input.  With `Transport.type =
"bus,tram"` the request parameters hold a single `transportations[]`
entry whose value is the last type `"tram"`; the entry for `"bus"` is
not present, because each loop iteration assigns into the same
dictionary key and overwrites the previous type.  The claim (one
repeated parameter per type) is what the code's own comment and the
upstream API expect, so this is a code bug. -/
theorem c1_multi_type_filter_keeps_last_only :
    buildParams "Mannessplatz" 20 (some "bus,tram") =
      [("station", "Mannessplatz"), ("limit", "20"), ("transportations[]", "tram")] ∧
    ("transportations[]", "bus") ∉ buildParams "Mannessplatz" 20 (some "bus,tram") := by
  decide

/-- C3 counterexample: for a departure 30 seconds before `now` the code
computes 0 minutes, while the floor of (-30)/60 is -1, so
`minutesUntilDeparture` is not `floor((t - now)/60)`. -/
theorem c3_counterexample_minus30 :
    minutesUntil 0 30 = 0 ∧ Int.fdiv ((0 : Int) - 30) 60 = -1 := by decide

/-- C3 (amended): `minutesUntilDeparture` is the timezone-correct
difference divided by 60 and rounded toward zero (Python `int()`
truncation): it equals `floor((t - now)/60)` when `t ≥ now` or when the
difference is an exact multiple of 60 seconds, and `floor + 1`
otherwise, so negative differences round toward zero rather than toward
minus infinity. -/
theorem c3_minutes_truncate_toward_zero (dep now : Int) :
    minutesUntil dep now =
      if 0 ≤ dep - now ∨ (60 : Int) ∣ (dep - now) then Int.fdiv (dep - now) 60
      else Int.fdiv (dep - now) 60 + 1 :=
  tdiv60_cases (dep - now)

/-- C6 counterexample: a lowercase `"zürich"` prefix is not stripped
(the regex is case-sensitive), so the cleanup does not produce
`"Bellevue"` from `"zürich, Bellevue"`. -/
theorem c6_counterexample_lowercase :
    stripZurich "zürich, Bellevue" ≠ "Bellevue" := by decide

/-- C6 (amended): destination cleanup strips a leading `"Zürich"` or
`"Zurich"` written exactly so (capital Z, lowercase remainder) together
with the following separator characters, and leaves every other string
unchanged - including a lowercase `"zürich"` prefix, which is not
stripped because the match is case-sensitive. -/
theorem c6_strip_prefix_case_sensitive :
    stripZurich "Zürich, Bellevue" = "Bellevue" ∧
    stripZurich "Zurich HB" = "HB" ∧
    stripZurich "Bern" = "Bern" ∧
    stripZurich "zürich, Bellevue" = "zürich, Bellevue" ∧
    ∀ (c : Char) (l : List Char), c ≠ 'Z' → stripZurichList (c :: l) = c :: l := by
  refine ⟨by decide, by decide, by decide, by decide, ?_⟩
  intro c l hc
  rcases l with _ | ⟨c1, _ | ⟨c2, _ | ⟨c3, _ | ⟨c4, _ | ⟨c5, rest⟩⟩⟩⟩⟩ <;>
    simp [stripZurichList, hc]

/-- C6 witness: the universally quantified clause applied at a concrete
character and list whose head is not `Z`. -/
theorem c6_strip_prefix_case_sensitive_witness :
    stripZurichList ('B' :: ['e']) = 'B' :: ['e'] :=
  c6_strip_prefix_case_sensitive.2.2.2.2 'B' ['e'] (by decide)

/-- C2 counterexample: with a 30-second refresh interval and a fetch
lasting 40 seconds, cycle 1's fetch starts at second 30, before cycle
0's result is delivered at second 40 - the timer is rearmed at spawn
time, not after delivery, so two fetches are in flight together. -/
theorem c2_counterexample_overlap :
    startTime 30 1 = 30 ∧ deliveryTime 30 (fun _ => 40) 0 = 40 ∧
    startTime 30 1 < deliveryTime 30 (fun _ => 40) 0 := by decide

/-- C2 (amended): the next refresh tick is armed immediately when the
fetch thread is spawned, so cycle N+1 starts exactly one interval after
cycle N starts, regardless of delivery; consequently no two fetches
overlap only under the additional assumption that every fetch finishes
within the interval. -/
theorem c2_timer_armed_at_spawn (interval : Nat) (dur : Nat → Nat) (n : Nat) :
    startTime interval (n + 1) = startTime interval n + interval ∧
    (dur n ≤ interval → deliveryTime interval dur n ≤ startTime interval (n + 1)) := by
  refine ⟨rfl, ?_⟩
  intro h
  simp only [deliveryTime, startTime]
  omega

/-- C2 witness: the amended theorem applied at a 30-second interval and
a 10-second fetch. -/
theorem c2_timer_armed_at_spawn_witness :
    startTime 30 1 = startTime 30 0 + 30 ∧
    deliveryTime 30 (fun _ => 10) 0 ≤ startTime 30 1 :=
  ⟨(c2_timer_armed_at_spawn 30 (fun _ => 10) 0).1,
   (c2_timer_armed_at_spawn 30 (fun _ => 10) 0).2 (by decide)⟩

/-- C4 counterexample: a raw batch of two future departures under a
configured `maxResults` of 1 is displayed as two rows - the client
applies no local truncation at all, so the output is not bounded by
`maxResults`. -/
theorem c4_counterexample_no_truncation :
    ((renderEntries (fun _ => 0)
        [{ stopDeparture := some (some 300), number := some "11",
           toDest := some "A", category := some "T" },
         { stopDeparture := some (some 600), number := some "12",
           toDest := some "B", category := some "T" }] 0).1).length = 2 ∧
    ¬ (((renderEntries (fun _ => 0)
        [{ stopDeparture := some (some 300), number := some "11",
           toDest := some "A", category := some "T" },
         { stopDeparture := some (some 600), number := some "12",
           toDest := some "B", category := some "T" }] 0).1).length ≤ 1) := by decide

/-- C4 (amended): the `maxResults` bound is enforced upstream only: it
is sent to the API as the `limit` request parameter (so the raw batch is
bounded before normalization), while the client itself truncates
nothing after normalization - it renders at most one row per received
record, in response order (the displayed rows are an initial segment of
the per-record normalization results), so rows dropped as already
departed do shrink the visible window below `maxResults`. -/
theorem c4_limit_requested_not_applied_locally
    (station_name : String) (max_buses : Nat) (tt : Option String)
    (clock : Nat → Int) (raw : List RawEntry) (n : Nat) :
    ("limit", toString max_buses) ∈ buildParams station_name max_buses tt ∧
    (renderEntries clock raw n).1.length ≤ raw.length ∧
    ∃ t, (renderEntries clock raw n).1 ++ t = allRows clock raw n := by
  refine ⟨?_, renderEntries_length_le clock raw n, renderEntries_prefix_allRows clock raw n⟩
  unfold buildParams
  have hbase : ("limit", toString max_buses) ∈
      [("station", station_name), ("limit", toString max_buses)] := by simp
  have hne : ("limit", toString max_buses).1 ≠ "transportations[]" := by
    intro h
    simp at h
  cases tt with
  | none => exact hbase
  | some t =>
      by_cases hc : t.data.any (fun c => c = ',')
      · simp only [hc, if_true]
        exact mem_foldl_dictInsert _ _ _ hbase hne
      · simp only [hc, if_false]
        exact mem_dictInsert _ _ _ _ hbase hne

/-- C5 counterexample: a batch whose first record lacks the
`stop`/`departure` field renders nothing and aborts (the `KeyError`
escapes the loop), even though the second, well-formed record renders
fine on its own - the malformed record is not skipped and does fail the
whole cycle. -/
theorem c5_counterexample_malformed_aborts :
    renderEntries (fun _ => 0)
        [{ stopDeparture := none, number := none,
           toDest := some "Bern", category := none },
         { stopDeparture := some (some 300), number := some "11",
           toDest := some "Bern", category := some "T" }] 0
      = ([], true) ∧
    renderEntries (fun _ => 0)
        [{ stopDeparture := some (some 300), number := some "11",
           toDest := some "Bern", category := some "T" }] 0
      = ([{ line := "11", destination := "Bern", icon := "tram",
            timeDisplay := "in 5" ++ tick, minutes := some 5 }], false) := by decide

/-- C5 (amended): a raw entry whose `stop`/`departure` record is missing
is not skipped: the `KeyError` raised on it aborts the processing of
that entry and of every later entry in the batch (rows rendered before
it remain on screen), instead of the cycle continuing with the rest. -/
theorem c5_missing_stop_aborts_batch (bus : RawEntry) (rest : List RawEntry)
    (clock : Nat → Int) (n : Nat) (h : bus.stopDeparture = none) :
    renderEntries clock (bus :: rest) n = ([], true) := by
  simp [renderEntries, create_bus_entry, h]

/-- C5 witness: the amended theorem applied to a concrete malformed
record followed by a well-formed one. -/
theorem c5_missing_stop_aborts_batch_witness :
    renderEntries (fun _ => 0)
        [{ stopDeparture := none, number := none,
           toDest := some "X", category := none },
         { stopDeparture := some (some 300), number := some "11",
           toDest := some "Bern", category := some "T" }] 0
      = ([], true) :=
  c5_missing_stop_aborts_batch _ _ (fun _ => 0) 0 rfl

/-- C7: every row the display renders with a computed minutes value has
that value nonnegative - a record whose computed minutes is strictly
negative returns early and produces no row. -/
theorem c7_rendered_minutes_nonneg (bus : RawEntry) (now : Int) (r : Row) (m : Int)
    (hr : create_bus_entry bus now = Except.ok (some r)) (hm : r.minutes = some m) :
    0 ≤ m := by
  rcases hsd : bus.stopDeparture with _ | md
  · simp [create_bus_entry, hsd] at hr
  · rcases md with _ | dep
    · rcases hto : bus.toDest with _ | dst
      · simp [create_bus_entry, finishRow, hsd, hto] at hr
      · simp [create_bus_entry, finishRow, hsd, hto] at hr
        rw [← hr] at hm
        simp at hm
    · by_cases hneg : minutesUntil dep now < 0
      · simp [create_bus_entry, hsd, hneg] at hr
      · rcases hto : bus.toDest with _ | dst
        · simp [create_bus_entry, finishRow, hsd, hto, hneg] at hr
        · simp [create_bus_entry, finishRow, hsd, hto, hneg] at hr
          rw [← hr] at hm
          simp at hm
          omega

/-- C7 witness: the theorem applied to a concrete rendered row five
minutes in the future. -/
theorem c7_rendered_minutes_nonneg_witness : (0 : Int) ≤ 5 :=
  c7_rendered_minutes_nonneg
    { stopDeparture := some (some 300), number := some "11",
      toDest := some "A", category := some "T" } 0
    { line := "11", destination := "A", icon := "tram",
      timeDisplay := "in 5" ++ tick, minutes := some 5 } 5 rfl rfl

/-- C9 counterexample: with the clock advancing by 100 seconds between
the two records of a batch (the source re-reads `datetime.now` inside
every `create_bus_entry` call), the displayed rows differ from
normalizing the same batch against the single reference time read at
the start - so the reference time is not a single value for the whole
batch. -/
theorem c9_counterexample_clock_advances :
    (renderEntries (fun n => if n = 0 then 0 else 100)
        [{ stopDeparture := some (some 30), number := some "1",
           toDest := some "A", category := none },
         { stopDeparture := some (some 30), number := some "1",
           toDest := some "A", category := none }] 0).1
      ≠ normalizeSingle 0
        [{ stopDeparture := some (some 30), number := some "1",
           toDest := some "A", category := none },
         { stopDeparture := some (some 30), number := some "1",
           toDest := some "A", category := none }] := by decide

/-- C9 (amended): normalization is deterministic in the raw batch and
the sequence of per-record clock readings, but the reference time is
re-read from the clock for every record rather than fixed once per
batch; when the clock reading is the same for every record and no
record aborts the loop, the output coincides with normalizing the whole
batch against that single reference time. -/
theorem c9_constant_clock_matches_single_now (now : Int) (raw : List RawEntry) (n : Nat)
    (h : (renderEntries (fun _ => now) raw n).2 = false) :
    (renderEntries (fun _ => now) raw n).1 = normalizeSingle now raw := by
  induction raw generalizing n with
  | nil => rfl
  | cons bus rest ih =>
      cases hc : create_bus_entry bus now with
      | error e => simp [renderEntries, hc] at h
      | ok o =>
          cases o with
          | none =>
              simp only [renderEntries, hc] at h ⊢
              simp only [normalizeSingle, hc]
              exact ih (n + 1) h
          | some r =>
              simp only [renderEntries, hc] at h ⊢
              simp only [normalizeSingle, hc]
              exact congrArg (r :: ·) (ih (n + 1) h)

/-- C9 witness: the amended theorem applied to a concrete two-record
batch under a constant clock. -/
theorem c9_constant_clock_matches_single_now_witness :
    (renderEntries (fun _ => 0)
        [{ stopDeparture := some (some 30), number := some "1",
           toDest := some "A", category := none },
         { stopDeparture := some (some 30), number := some "1",
           toDest := some "A", category := none }] 0).1
      = normalizeSingle 0
        [{ stopDeparture := some (some 30), number := some "1",
           toDest := some "A", category := none },
         { stopDeparture := some (some 30), number := some "1",
           toDest := some "A", category := none }] :=
  c9_constant_clock_matches_single_now 0 _ 0 (by decide)

/-- C10: a well-formed departure strictly in the past by less than 60
seconds computes 0 minutes and is rendered with the `"Now"` label; a
departure at least 60 seconds in the past computes a strictly negative
value and is dropped; a departure not in the past is always rendered. -/
theorem c10_sub_minute_past_shown_as_now (bus : RawEntry) (dep now : Int) (dst : String)
    (hdep : bus.stopDeparture = some (some dep)) (hto : bus.toDest = some dst) :
    (now - 60 < dep → dep < now →
        create_bus_entry bus now =
          Except.ok (some { line := bus.number.getD "N/A",
                            destination := stripZurich dst,
                            icon := iconFor (bus.category.getD ""),
                            timeDisplay := "Now",
                            minutes := some 0 })) ∧
    (dep ≤ now - 60 → create_bus_entry bus now = Except.ok none) ∧
    (now ≤ dep → ∃ r, create_bus_entry bus now = Except.ok (some r)) := by
  refine ⟨?_, ?_, ?_⟩
  · intro h1 h2
    have hz : minutesUntil dep now = 0 := tdiv60_eq_zero (by omega) (by omega)
    simp [create_bus_entry, hdep, finishRow, hto, hz]
  · intro h1
    have hneg : minutesUntil dep now < 0 := tdiv60_neg (by omega)
    simp [create_bus_entry, hdep, hneg]
  · intro h1
    have hge : ¬ (minutesUntil dep now < 0) := by
      have := tdiv60_nonneg (d := dep - now) (by omega)
      unfold minutesUntil
      omega
    refine ⟨{ line := bus.number.getD "N/A",
              destination := stripZurich dst,
              icon := iconFor (bus.category.getD ""),
              timeDisplay :=
                if minutesUntil dep now = 0 then "Now"
                else "in " ++ toString (minutesUntil dep now) ++ tick,
              minutes := some (minutesUntil dep now) }, ?_⟩
    simp [create_bus_entry, hdep, finishRow, hto, hge]

/-- C10 witness: the theorem applied to a departure 30 seconds in the
past (rendered as `"Now"`) and one exactly 60 seconds in the past
(dropped). -/
theorem c10_sub_minute_past_shown_as_now_witness :
    create_bus_entry
        { stopDeparture := some (some (-30)), number := none,
          toDest := some "Bern", category := none } 0
      = Except.ok (some { line := "N/A", destination := "Bern",
                          icon := "bus", timeDisplay := "Now",
                          minutes := some 0 }) ∧
    create_bus_entry
        { stopDeparture := some (some (-60)), number := none,
          toDest := some "Bern", category := none } 0
      = Except.ok none :=
  ⟨(c10_sub_minute_past_shown_as_now _ (-30) 0 "Bern" rfl rfl).1 (by decide) (by decide),
   (c10_sub_minute_past_shown_as_now _ (-60) 0 "Bern" rfl rfl).2.1 (by decide)⟩

/-- C8: whenever the response body has the `station` key explicitly
null, `update_display` shows the station-not-found message, whatever the
`stationboard` field holds (absent, empty, or populated); the
stationboard check is never reached. -/
theorem c8_station_null_not_found (sb : Option (List RawEntry)) (clock : Nat → Int) :
    update_display { station := some none, stationboard := sb } clock =
      DisplayOutcome.stationNotFound := rfl

end BusDisplay
